import Mathlib

/-!
Verification of the content-acquisition and retrieval pipeline of the
agile-biofoundry-search repository (src/streamlit_app.py, src/lean_client.py,
src/test_playwright.py).

The Python source is shallowly embedded below.  Pure string manipulation is
translated to executable Lean functions on `String` (Python `str` indexing,
slicing and `len` operate on code points, as do `String.data`-based helpers
here).  Network calls, the headless browser, the sklearn vectorizer, uuid and
timestamps are external collaborators and enter the definitions as explicit
oracle parameters; everything the repository itself computes is translated
from the source.  Python float score constants (0.5, 0.3, 0.1) are modelled
as exact rationals.
-/

/-! ### Python string primitives used by the source -/

/-- Python `s.lower()` (code-point-wise; the source only lowercases ASCII). -/
def pyLower (s : String) : String :=
  String.mk (s.data.map Char.toLower)

/-- Python `s[:n]` on a string: the first `n` code points. -/
def pySlice (s : String) (n : Nat) : String :=
  String.mk (s.data.take n)

/-- Python `s.strip()`: remove leading and trailing whitespace. -/
def pyStrip (s : String) : String :=
  String.mk (((s.data.dropWhile Char.isWhitespace).reverse.dropWhile
    Char.isWhitespace).reverse)

/-- Helper for Python `sub in s`: scan the haystack for the pattern. -/
def hasSubAux (sub : List Char) : List Char → Bool
  | [] => sub.isPrefixOf []
  | c :: rest => sub.isPrefixOf (c :: rest) || hasSubAux sub rest

/-- Python `sub in s` (substring containment; `"" in s` is `True`). -/
def containsSub (s sub : String) : Bool :=
  hasSubAux sub.data s.data

/-- Helper for Python `s.count(sub)`: count non-overlapping occurrences
left to right; `fuel` bounds the recursion by the haystack length. -/
def subCountGo (sub : List Char) : Nat → List Char → Nat
  | 0, _ => 0
  | _ + 1, [] => 0
  | fuel + 1, c :: rest =>
    if sub.isPrefixOf (c :: rest) then
      1 + subCountGo sub fuel ((c :: rest).drop sub.length)
    else
      subCountGo sub fuel rest

/-- Python `s.count(sub)`: non-overlapping occurrence count
(`s.count("")` is `len(s) + 1`). -/
def pyCount (s sub : String) : Nat :=
  if sub.data.isEmpty then s.data.length + 1
  else subCountGo sub.data s.data.length s.data

/-- Helper for Python `s.replace(pat, rep)`: replace non-overlapping
occurrences left to right; `fuel` bounds the recursion. -/
def pyReplaceGo (pat rep : List Char) : Nat → List Char → List Char
  | 0, l => l
  | _ + 1, [] => []
  | fuel + 1, c :: rest =>
    if pat.isPrefixOf (c :: rest) then
      rep ++ pyReplaceGo pat rep fuel ((c :: rest).drop pat.length)
    else
      c :: pyReplaceGo pat rep fuel rest

/-- Python `s.replace(pat, rep)` for a non-empty pattern (the source only
replaces non-empty patterns such as `"www."` and `"://"`). -/
def pyReplace (s pat rep : String) : String :=
  if pat.data.isEmpty then s
  else String.mk (pyReplaceGo pat.data rep.data s.data.length s.data)

/-- Python `s.endswith(suf)`. -/
def pyEndsWith (s suf : String) : Bool :=
  suf.data.isSuffixOf s.data

theorem strLength_mk (l : List Char) : (String.mk l).length = l.length := rfl

theorem strLength_data (s : String) : s.length = s.data.length := rfl

theorem pySlice_length (s : String) (n : Nat) :
    (pySlice s n).length = min n s.length := by
  rw [pySlice, strLength_mk, strLength_data]
  exact List.length_take n s.data

/-! ### Data model

`ArticleRecord` (spec §3): the dictionaries created by `add_article` and
`process_article_batch` in src/streamlit_app.py.  A missing/None string field
is modelled as `""`; the `import_status` key being absent is modelled by
`ImportStatus.unset`; a missing `import_reason` key is `none`. -/

inductive ImportStatus where
  | unset
  | success
  | failed
deriving DecidableEq, Repr

structure Article where
  id : String
  title : String
  authors : List String
  abstract : String
  url : String
  text : String
  created_at : String
  importStatus : ImportStatus
  importReason : Option String
deriving DecidableEq, Repr

instance : Inhabited Article :=
  ⟨⟨"", "", [], "", "", "", "", ImportStatus.unset, none⟩⟩

/-! ### Storage operations (src/streamlit_app.py lines 196-200)

`delete_article` loads the article list, filters out the record with the
given id, and atomically persists the result; the embedding maps the loaded
list to the persisted list. -/

def delete_article (articles : List Article) (article_id : String) : List Article :=
  articles.filter (fun a => a.id != article_id)

/-! ### PDF extraction (src/lean_client.py lines 80-104)

The PDF branch of `_download_and_extract`: the downloaded document enters as
an oracle.  `none` models `pdfplumber.open` (or page iteration) raising; a
`PageRes.pageErr` entry models `page.extract_text()` raising on that page
(the enclosing `try` makes any such exception abort the whole document);
`PageRes.pageOk none` models `extract_text()` returning `None`, which
`or ""` turns into the empty string. -/

inductive PageRes where
  | pageOk (t : Option String)
  | pageErr
deriving DecidableEq, Repr

def pageText : PageRes → String
  | PageRes.pageOk t => t.getD ""
  | PageRes.pageErr => ""

def download_and_extract_pdf (pdfplumberAvailable : Bool)
    (openRes : Option (List PageRes)) : String :=
  if pdfplumberAvailable then
    match openRes with
    | none => ""
    | some pages =>
      if PageRes.pageErr ∈ pages then ""
      else String.intercalate "\n\n" (pages.map pageText)
  else ""

/-- C8 counterexample: the PDF path of `_download_and_extract` has no
failure taxonomy.  A zero-page document and a structurally corrupt document
(open raises) both yield the bare empty string with no reason; a single
page's extraction failure aborts the document (the first page's text is
lost); and a document whose concatenated text is at most 100 characters is
returned as-is rather than reported as a failure. -/
theorem download_and_extract_pdf_no_failure_taxonomy :
    download_and_extract_pdf true (some []) = "" ∧
    download_and_extract_pdf true none = "" ∧
    download_and_extract_pdf true
      (some [PageRes.pageOk (some "Page one text"), PageRes.pageErr]) = "" ∧
    download_and_extract_pdf true (some [PageRes.pageOk (some "tiny")]) = "tiny" := by
  refine ⟨rfl, rfl, ?_, rfl⟩
  decide

/-- C8 (amended): in the PDF path of `_download_and_extract`, a page whose
`extract_text()` returns `None` is replaced by the empty string, but any
exception while opening the file or extracting any single page aborts the
whole document and yields the empty string; a zero-page document also yields
the empty string; no 100-character threshold is applied and no reason is
produced — every failure mode returns the bare empty string. -/
theorem download_and_extract_pdf_behavior (pages : List PageRes)
    (openRes : Option (List PageRes)) :
    (PageRes.pageErr ∈ pages → download_and_extract_pdf true (some pages) = "") ∧
    (openRes = none → download_and_extract_pdf true openRes = "") ∧
    (PageRes.pageErr ∉ pages →
      download_and_extract_pdf true (some pages) =
        String.intercalate "\n\n" (pages.map pageText)) := by
  refine ⟨?_, ?_, ?_⟩
  · intro h
    simp [download_and_extract_pdf, h]
  · intro h
    simp [download_and_extract_pdf, h]
  · intro h
    simp [download_and_extract_pdf, h]

theorem download_and_extract_pdf_behavior_witness :
    (download_and_extract_pdf true (some [PageRes.pageOk (some "alpha")]) =
      String.intercalate "\n\n" ([PageRes.pageOk (some "alpha")].map pageText)) :=
  (download_and_extract_pdf_behavior [PageRes.pageOk (some "alpha")] none).2.2
    (by decide)

/-- C10: `delete_article` persists exactly the records whose id differs from
the given id — the result is a sublist of the input (so the surviving
records are unchanged and keep their relative order), every copy of a record
carrying the deleted id is removed, and every other record is kept with its
exact multiplicity. -/
theorem delete_article_frame (articles : List Article) (article_id : String) :
    List.Sublist (delete_article articles article_id) articles ∧
    ∀ a : Article, (delete_article articles article_id).count a =
      if a.id = article_id then 0 else articles.count a := by
  constructor
  · exact List.filter_sublist articles
  · intro a
    simp only [delete_article]
    by_cases h : a.id = article_id
    · rw [if_pos h, List.count_eq_zero]
      intro hmem
      have := List.of_mem_filter hmem
      simp [h] at this
    · rw [if_neg h]
      exact List.count_filter (by simp [h])

/-! ### Search functionality (src/streamlit_app.py lines 766-816)

`build_tfidf_index` returns `None` when the library is empty or every
document text is empty after stripping (and on a sklearn `ValueError`);
`search_articles` then falls back to deterministic keyword scoring.  The
sklearn vectorizer and `cosine_similarity` are external collaborators: the
similarity row `sims` enters `search_articles` as an oracle
(`vecResult = none` models the `ValueError` branch).  `numpy.argsort` is
modelled as a stable ascending sort of the index list (numpy's default
quicksort leaves the relative order of equal entries unspecified). -/

/-- Insert for the stable descending sort modelling Python
`list.sort(key=..., reverse=True)`: a new element goes before the first
strictly smaller key, hence after all equal keys (stability). -/
def insertGeBy (key : α → ℚ) (x : α) : List α → List α
  | [] => [x]
  | y :: ys => if key y < key x then x :: y :: ys else y :: insertGeBy key x ys

/-- Stable descending insertion sort by a rational key. -/
def sortGeBy (key : α → ℚ) (l : List α) : List α :=
  l.foldl (fun acc x => insertGeBy key x acc) []

/-- Insert for the stable ascending sort modelling `numpy.argsort`
(kind=stable): a new element goes before the first strictly larger key. -/
def insertLeBy (key : α → ℚ) (x : α) : List α → List α
  | [] => [x]
  | y :: ys => if key x < key y then x :: y :: ys else y :: insertLeBy key x ys

/-- Stable ascending insertion sort by a rational key. -/
def sortLeBy (key : α → ℚ) (l : List α) : List α :=
  l.foldl (fun acc x => insertLeBy key x acc) []

/-- `sims.argsort()`: indices `0..len(sims)-1` sorted by ascending value. -/
def argsortAsc (sims : List ℚ) : List Nat :=
  sortLeBy (fun i => sims.getD i 0) (List.range sims.length)

/-- The document text used by `build_tfidf_index`:
`a.get("text", "") or a.get("abstract", "") or ""`. -/
def docText (a : Article) : String :=
  if a.text ≠ "" then a.text else if a.abstract ≠ "" then a.abstract else ""

/-- `build_tfidf_index` returns `(None, None)`: the list is empty or all
stripped document texts are empty (`if not any(texts)`). -/
def tfidfDegenerate (articles : List Article) : Bool :=
  articles.all (fun a => (pyStrip (docText a)).data.isEmpty)

/-- The keyword-fallback score of one article for a lowercased query:
`+2.0` for a title substring match, `+0.5` per title occurrence, `+0.3`
per abstract occurrence, `+0.1` per text occurrence (floats modelled as
exact rationals). -/
def keywordScore (query_lower : String) (a : Article) : ℚ :=
  let title := pyLower a.title
  let abstract := pyLower a.abstract
  let text := pyLower a.text
  (if containsSub title query_lower then (2 : ℚ) else 0)
    + (pyCount title query_lower : ℚ) * (1 / 2)
    + (pyCount abstract query_lower : ℚ) * (3 / 10)
    + (pyCount text query_lower : ℚ) * (1 / 10)

/-- The keyword fallback's scored index list: each article index paired
with its positive score, sorted by descending score (stable). -/
def keywordRankedIdx (query : String) (articles : List Article) : List (Nat × ℚ) :=
  let query_lower := pyLower query
  let scored := (articles.enum.map (fun p => (p.1, keywordScore query_lower p.2))).filter
    (fun p => decide (0 < p.2))
  sortGeBy (fun p => p.2) scored

/-- `search_articles(query, articles, top_k)` with the vectorizer outcome
supplied as an oracle: `vecResult = some sims` is the cosine-similarity row
of the query against the library, `none` models the sklearn `ValueError`
branch of `build_tfidf_index`. -/
def search_articles (query : String) (articles : List Article) (top_k : Nat)
    (vecResult : Option (List ℚ)) : List (Article × ℚ) :=
  if articles.isEmpty then []
  else
    match (if tfidfDegenerate articles then none else vecResult) with
    | none =>
      ((keywordRankedIdx query articles).take top_k).map
        (fun p => (articles.getD p.1 default, p.2))
    | some sims =>
      let top_idx := ((argsortAsc sims).reverse).take top_k
      (top_idx.filter (fun i => decide (0 < sims.getD i 0))).map
        (fun i => (articles.getD i default, sims.getD i 0))

/-! ### Ordering lemmas for the two ranking paths -/

theorem insertLeBy_mem {key : α → ℚ} {x y : α} {l : List α} :
    y ∈ insertLeBy key x l ↔ y = x ∨ y ∈ l := by
  induction l with
  | nil => simp [insertLeBy]
  | cons z zs ih =>
    by_cases h : key x < key z
    · simp [insertLeBy, h]
    · simp [insertLeBy, h, ih]
      tauto

theorem insertLeBy_pairwise {key : α → ℚ} {x : α} {l : List α}
    (hl : l.Pairwise (fun a b => key a ≤ key b)) :
    (insertLeBy key x l).Pairwise (fun a b => key a ≤ key b) := by
  induction l with
  | nil => simp [insertLeBy]
  | cons z zs ih =>
    rw [List.pairwise_cons] at hl
    by_cases h : key x < key z
    · rw [insertLeBy, if_pos h]
      refine List.Pairwise.cons ?_ (List.Pairwise.cons hl.1 hl.2)
      intro b hb
      rcases List.mem_cons.mp hb with rfl | hb
      · exact le_of_lt h
      · exact le_trans (le_of_lt h) (hl.1 b hb)
    · rw [insertLeBy, if_neg h]
      refine List.Pairwise.cons ?_ (ih hl.2)
      intro b hb
      rcases insertLeBy_mem.mp hb with rfl | hb
      · exact not_lt.mp h
      · exact hl.1 b hb

theorem sortLeBy_pairwise (key : α → ℚ) (l : List α) :
    (sortLeBy key l).Pairwise (fun a b => key a ≤ key b) := by
  suffices h : ∀ acc : List α, acc.Pairwise (fun a b => key a ≤ key b) →
      (l.foldl (fun a x => insertLeBy key x a) acc).Pairwise (fun a b => key a ≤ key b) by
    exact h [] (by simp)
  induction l with
  | nil => intro acc hacc; exact hacc
  | cons x xs ih => intro acc hacc; exact ih _ (insertLeBy_pairwise hacc)

/-- Strict ranking order of the keyword fallback output: strictly greater
score first, ties broken by smaller original index (stability). -/
def scoreLex (p q : Nat × ℚ) : Prop :=
  q.2 < p.2 ∨ (p.2 = q.2 ∧ p.1 < q.1)

theorem insertGeBy_mem {key : α → ℚ} {x y : α} {l : List α} :
    y ∈ insertGeBy key x l ↔ y = x ∨ y ∈ l := by
  induction l with
  | nil => simp [insertGeBy]
  | cons z zs ih =>
    by_cases h : key z < key x
    · simp [insertGeBy, h]
    · simp [insertGeBy, h, ih]
      tauto

theorem insertGeBy_pairwise_lex {x : Nat × ℚ} {l : List (Nat × ℚ)}
    (hl : l.Pairwise scoreLex) (hx : ∀ y ∈ l, y.1 < x.1) :
    (insertGeBy (fun p => p.2) x l).Pairwise scoreLex := by
  induction l with
  | nil => simp [insertGeBy]
  | cons z zs ih =>
    rw [List.pairwise_cons] at hl
    by_cases h : z.2 < x.2
    · rw [insertGeBy, if_pos h]
      refine List.Pairwise.cons ?_ (List.Pairwise.cons hl.1 hl.2)
      intro b hb
      rcases List.mem_cons.mp hb with rfl | hb
      · exact Or.inl h
      · rcases hl.1 b hb with hb2 | hb2
        · exact Or.inl (lt_trans hb2 h)
        · exact Or.inl (hb2.1 ▸ h)
    · rw [insertGeBy, if_neg h]
      refine List.Pairwise.cons ?_ (ih hl.2 (fun y hy => hx y (List.mem_cons_of_mem z hy)))
      intro b hb
      rcases insertGeBy_mem.mp hb with rfl | hb
      · rcases lt_or_eq_of_le (not_lt.mp h) with h2 | h2
        · exact Or.inl h2
        · exact Or.inr ⟨h2.symm, hx z (List.mem_cons_self z zs)⟩
      · exact hl.1 b hb

theorem sortGeBy_pairwise_lex (l : List (Nat × ℚ))
    (hl : l.Pairwise (fun p q => p.1 < q.1)) :
    (sortGeBy (fun p => p.2) l).Pairwise scoreLex := by
  suffices h : ∀ m acc : List (Nat × ℚ), m.Pairwise (fun p q => p.1 < q.1) →
      acc.Pairwise scoreLex → (∀ y ∈ acc, ∀ x ∈ m, y.1 < x.1) →
      (m.foldl (fun a x => insertGeBy (fun p => p.2) x a) acc).Pairwise scoreLex by
    exact h l [] hl (by simp) (by simp)
  intro m
  induction m with
  | nil => intro acc _ hacc _; exact hacc
  | cons x xs ih =>
    intro acc hm hacc hcross
    rw [List.foldl_cons]
    rw [List.pairwise_cons] at hm
    apply ih
    · exact hm.2
    · exact insertGeBy_pairwise_lex hacc (fun y hy => hcross y hy x (List.mem_cons_self x xs))
    · intro y hy z hz
      rcases insertGeBy_mem.mp hy with rfl | hy
      · exact hm.1 z hz
      · exact hcross y hy z (List.mem_cons_of_mem x hz)

theorem sortGeBy_mem {key : α → ℚ} {l : List α} {p : α} :
    p ∈ sortGeBy key l ↔ p ∈ l := by
  suffices h : ∀ m acc : List α,
      (p ∈ m.foldl (fun a x => insertGeBy key x a) acc ↔ p ∈ acc ∨ p ∈ m) by
    have := h l []
    simpa [sortGeBy] using this
  intro m
  induction m with
  | nil => intro acc; simp
  | cons x xs ih =>
    intro acc
    rw [List.foldl_cons, ih (insertGeBy key x acc)]
    simp [insertGeBy_mem]
    tauto

/-- Closed form of `keywordScore` over a common denominator of 10, used to
evaluate concrete instances (the rational operations themselves are
irreducible). -/
theorem keywordScore_eval (ql : String) (a : Article) :
    keywordScore ql a =
      mkRat ((if containsSub (pyLower a.title) ql then 20 else 0)
        + 5 * (pyCount (pyLower a.title) ql : Int)
        + 3 * (pyCount (pyLower a.abstract) ql : Int)
        + (pyCount (pyLower a.text) ql : Int)) 10 := by
  unfold keywordScore
  rw [Rat.mkRat_eq_div]
  by_cases h : containsSub (pyLower a.title) ql
  · simp only [h, if_pos, if_true]
    push_cast
    field_simp
    ring
  · simp only [h, if_neg, if_false, Bool.false_eq_true]
    push_cast
    field_simp
    ring

theorem enum_pairwise_fst (l : List α) : l.enum.Pairwise (fun p q => p.1 < q.1) := by
  have h1 : (l.enum.map Prod.fst).Pairwise (· < ·) := by
    rw [List.enum_map_fst]
    exact List.pairwise_lt_range _
  rw [List.pairwise_map] at h1
  exact h1

theorem keywordRankedIdx_pairwise (query : String) (articles : List Article) :
    (keywordRankedIdx query articles).Pairwise scoreLex := by
  unfold keywordRankedIdx
  apply sortGeBy_pairwise_lex
  apply List.Pairwise.filter
  rw [List.pairwise_map]
  exact enum_pairwise_fst articles

theorem keywordRankedIdx_pos (query : String) (articles : List Article) :
    ∀ p ∈ keywordRankedIdx query articles, 0 < p.2 := by
  intro p hp
  unfold keywordRankedIdx at hp
  rw [sortGeBy_mem] at hp
  have := List.of_mem_filter hp
  simpa using this

theorem tfidf_top_pairwise (sims : List ℚ) (top_k : Nat) :
    ((((argsortAsc sims).reverse).take top_k).filter
      (fun i => decide (0 < sims.getD i 0))).Pairwise
        (fun i j => sims.getD j 0 ≤ sims.getD i 0) := by
  apply List.Pairwise.filter
  apply List.Pairwise.sublist (List.take_sublist _ _)
  rw [List.pairwise_reverse]
  exact sortLeBy_pairwise _ _

/-- C2 (amended): every (article, score) pair returned by `search_articles`
has a strictly positive score, and the returned list is ordered by
non-increasing score, on both the TF-IDF path and the keyword-fallback path;
on the TF-IDF path the scores additionally lie in [0, 1] whenever the
cosine-similarity row does (keyword-fallback scores may exceed 1). -/
theorem search_articles_scores_positive_sorted (query : String) (articles : List Article)
    (top_k : Nat) (vecResult : Option (List ℚ))
    (hsim : ∀ sims, vecResult = some sims → ∀ s ∈ sims, 0 ≤ s ∧ s ≤ 1) :
    (∀ p ∈ search_articles query articles top_k vecResult, 0 < p.2) ∧
    (search_articles query articles top_k vecResult).Pairwise (fun p q => q.2 ≤ p.2) ∧
    (∀ sims, vecResult = some sims → tfidfDegenerate articles = false →
      ∀ p ∈ search_articles query articles top_k vecResult, p.2 ≤ 1) := by
  by_cases hempty : articles.isEmpty
  · simp [search_articles, hempty]
  · have hkw : ∀ (r : List (Article × ℚ)),
        r = ((keywordRankedIdx query articles).take top_k).map
          (fun p => (articles.getD p.1 default, p.2)) →
        (∀ p ∈ r, 0 < p.2) ∧ r.Pairwise (fun p q => q.2 ≤ p.2) := by
      intro r hr
      subst hr
      constructor
      · intro p hp
        obtain ⟨q, hq, rfl⟩ := List.mem_map.mp hp
        exact keywordRankedIdx_pos query articles q (List.mem_of_mem_take hq)
      · rw [List.pairwise_map]
        apply List.Pairwise.sublist (List.take_sublist _ _)
        apply (keywordRankedIdx_pairwise query articles).imp
        intro p q hpq
        rcases hpq with h | h
        · exact le_of_lt h
        · exact le_of_eq h.1.symm
    by_cases hdeg : tfidfDegenerate articles
    · have hout : search_articles query articles top_k vecResult =
          ((keywordRankedIdx query articles).take top_k).map
            (fun p => (articles.getD p.1 default, p.2)) := by
        simp [search_articles, hempty, hdeg]
      refine ⟨(hkw _ hout).1, (hkw _ hout).2, ?_⟩
      intro sims _ hdeg2
      rw [hdeg2] at hdeg
      exact absurd hdeg (by simp)
    · cases vecResult with
      | none =>
        have hout : search_articles query articles top_k none =
            ((keywordRankedIdx query articles).take top_k).map
              (fun p => (articles.getD p.1 default, p.2)) := by
          simp [search_articles, hempty, hdeg]
        refine ⟨(hkw _ hout).1, (hkw _ hout).2, ?_⟩
        intro sims heq
        exact absurd heq (by simp)
      | some sims =>
        have hout : search_articles query articles top_k (some sims) =
            ((((argsortAsc sims).reverse).take top_k).filter
              (fun i => decide (0 < sims.getD i 0))).map
                (fun i => (articles.getD i default, sims.getD i 0)) := by
          simp [search_articles, hempty, hdeg]
        refine ⟨?_, ?_, ?_⟩
        · intro p hp
          rw [hout] at hp
          obtain ⟨i, hi, rfl⟩ := List.mem_map.mp hp
          exact of_decide_eq_true (List.mem_filter.mp hi).2
        · rw [hout, List.pairwise_map]
          exact tfidf_top_pairwise sims top_k
        · intro sims' heq hdeg2 p hp
          obtain rfl : sims = sims' := Option.some.inj heq
          rw [hout] at hp
          obtain ⟨i, hi, rfl⟩ := List.mem_map.mp hp
          have hpos : 0 < sims.getD i 0 :=
            of_decide_eq_true (List.mem_filter.mp hi).2
          by_cases hlen : i < sims.length
          · have hmem : sims.getD i 0 ∈ sims := by
              rw [List.getD_eq_getElem?_getD,
                (List.getElem?_eq_some_getElem_iff sims i hlen).mpr trivial]
              exact List.getElem_mem hlen
            exact (hsim sims rfl _ hmem).2
          · have hz : sims.getD i 0 = 0 := by
              rw [List.getD_eq_getElem?_getD,
                List.getElem?_eq_none_iff.mpr (le_of_not_lt hlen)]
              rfl
            rw [hz] at hpos
            exact absurd hpos (lt_irrefl 0)

theorem search_articles_scores_positive_sorted_witness :
    (search_articles "growth"
      [⟨"1", "Cell growth study", [], "", "", "", "", ImportStatus.unset, none⟩]
      5 none).Pairwise (fun p q => q.2 ≤ p.2) :=
  (search_articles_scores_positive_sorted "growth"
    [⟨"1", "Cell growth study", [], "", "", "", "", ImportStatus.unset, none⟩]
    5 none (fun _ h => Option.noConfusion h)).2.1

/-- C2 counterexample: on the keyword-fallback path a returned score can
exceed 1 — for the query "growth" against a one-article degenerate library
whose title is "Cell growth study", `search_articles` returns the article
with score 5/2, which is not in the closed interval [0, 1]. -/
theorem search_articles_keyword_score_exceeds_one :
    search_articles "growth"
      [⟨"1", "Cell growth study", [], "", "", "", "", ImportStatus.unset, none⟩]
      5 none =
      [(⟨"1", "Cell growth study", [], "", "", "", "", ImportStatus.unset, none⟩,
        mkRat 5 2)] ∧
    ¬ ((mkRat 5 2 : ℚ) ≤ 1) := by
  constructor
  · have hdeg : tfidfDegenerate
        [⟨"1", "Cell growth study", [], "", "", "", "", ImportStatus.unset, none⟩] = true := by
      decide
    simp only [search_articles, hdeg, if_true, List.isEmpty_cons, keywordRankedIdx,
      List.enum, keywordScore_eval]
    decide
  · decide

/-- C3 (amended): stable tie-breaking by original list order holds on the
keyword-fallback path: the fallback output of `search_articles` is exactly
the top-k prefix of `keywordRankedIdx`, which is ordered by strictly
decreasing score with equal scores ordered by increasing original index.
(The TF-IDF path does not preserve input order on ties; see the
counterexample.) -/
theorem search_articles_keyword_ties_stable (query : String) (articles : List Article)
    (top_k : Nat) (vecResult : Option (List ℚ))
    (hfallback : tfidfDegenerate articles = true ∨ vecResult = none) :
    (keywordRankedIdx query articles).Pairwise scoreLex ∧
    search_articles query articles top_k vecResult =
      ((keywordRankedIdx query articles).take top_k).map
        (fun p => (articles.getD p.1 default, p.2)) := by
  refine ⟨keywordRankedIdx_pairwise query articles, ?_⟩
  by_cases hempty : articles.isEmpty
  · have h0 : articles = [] := List.isEmpty_iff.mp hempty
    subst h0
    simp [search_articles, keywordRankedIdx, sortGeBy]
  · rcases hfallback with hdeg | rfl
    · simp [search_articles, hempty, hdeg]
    · by_cases hdeg : tfidfDegenerate articles
      · simp [search_articles, hempty, hdeg]
      · simp [search_articles, hempty, hdeg]

theorem search_articles_keyword_ties_stable_witness :
    (keywordRankedIdx "growth"
      [⟨"1", "Cell growth study", [], "", "", "", "", ImportStatus.unset, none⟩]).Pairwise
        scoreLex ∧
    search_articles "growth"
      [⟨"1", "Cell growth study", [], "", "", "", "", ImportStatus.unset, none⟩] 5 none =
      ((keywordRankedIdx "growth"
        [⟨"1", "Cell growth study", [], "", "", "", "", ImportStatus.unset, none⟩]).take 5).map
        (fun p =>
          ([⟨"1", "Cell growth study", [], "", "", "", "", ImportStatus.unset,
            none⟩].getD p.1 default, p.2)) :=
  search_articles_keyword_ties_stable "growth"
    [⟨"1", "Cell growth study", [], "", "", "", "", ImportStatus.unset, none⟩] 5 none
    (Or.inl (by decide))

/-- C3 counterexample: on the TF-IDF path two articles with equal positive
similarity are returned in reversed input order — with similarities
[1/2, 1/2] the second article "B" is returned before the first article "A"
even though both scores are equal, so ties do not keep the original list
order. -/
theorem search_articles_tfidf_ties_reversed :
    search_articles "q"
      [⟨"3", "A", [], "", "", "alpha", "", ImportStatus.unset, none⟩,
       ⟨"4", "B", [], "", "", "beta", "", ImportStatus.unset, none⟩] 5
      (some [mkRat 1 2, mkRat 1 2]) =
    [(⟨"4", "B", [], "", "", "beta", "", ImportStatus.unset, none⟩, mkRat 1 2),
     (⟨"3", "A", [], "", "", "alpha", "", ImportStatus.unset, none⟩, mkRat 1 2)] ∧
    (⟨"3", "A", [], "", "", "alpha", "", ImportStatus.unset, none⟩ : Article) ≠
      ⟨"4", "B", [], "", "", "beta", "", ImportStatus.unset, none⟩ := by
  constructor
  · decide
  · decide

/-- C4 (amended): for the query "growth" against the two-article library
[{title: "Cell growth study", text: ""}, {title: "Unrelated", text: ""}]
(degenerate TF-IDF input) and top_k = 5, `search_articles` takes the keyword
fallback regardless of the vectorizer outcome and returns exactly one
result: the first article with score 5/2 (= 2.0 title-match bonus plus
0.5 × one occurrence of "growth" in the title); the second article scores 0
and is excluded. -/
theorem search_articles_growth_scenario (vecResult : Option (List ℚ)) :
    search_articles "growth"
      [⟨"1", "Cell growth study", [], "", "", "", "", ImportStatus.unset, none⟩,
       ⟨"2", "Unrelated", [], "", "", "", "", ImportStatus.unset, none⟩] 5 vecResult =
    [(⟨"1", "Cell growth study", [], "", "", "", "", ImportStatus.unset, none⟩,
      mkRat 5 2)] := by
  have hdeg : tfidfDegenerate
      [⟨"1", "Cell growth study", [], "", "", "", "", ImportStatus.unset, none⟩,
       ⟨"2", "Unrelated", [], "", "", "", "", ImportStatus.unset, none⟩] = true := by decide
  simp only [search_articles, hdeg, if_true, List.isEmpty_cons, keywordRankedIdx,
    List.enum, keywordScore_eval]
  decide

/-- C4 counterexample: in the degenerate-library scenario of the claim the
returned score of the first article is not 2.0 — the code adds the 2.0
title-match bonus and 0.5 for the counted title occurrence, so the result
differs from a single pair with score 2.0. -/
theorem search_articles_growth_scenario_not_two :
    search_articles "growth"
      [⟨"1", "Cell growth study", [], "", "", "", "", ImportStatus.unset, none⟩,
       ⟨"2", "Unrelated", [], "", "", "", "", ImportStatus.unset, none⟩] 5 none ≠
    [(⟨"1", "Cell growth study", [], "", "", "", "", ImportStatus.unset, none⟩,
      (2 : ℚ))] := by
  have hdeg : tfidfDegenerate
      [⟨"1", "Cell growth study", [], "", "", "", "", ImportStatus.unset, none⟩,
       ⟨"2", "Unrelated", [], "", "", "", "", ImportStatus.unset, none⟩] = true := by decide
  simp only [search_articles, hdeg, if_true, List.isEmpty_cons, keywordRankedIdx,
    List.enum, keywordScore_eval]
  decide

/-! ### Batch import (src/streamlit_app.py lines 596-621 and 849-951)

`fetch_and_extract_html` delegates the network and browser work to
`AcademicArticleFetcher.fetch`, whose outcome enters as the argument
`fetchResult` (the initial `time.sleep(delay)` and the fetcher construction
have no observable effect on the returned pair). -/

def MAX_ARTICLE_TEXT : Nat := 200000

/-- The direct-PDF URL pattern test shared by `fetch_and_extract_html` and
`process_article_batch`. -/
def isPdfUrl (url : String) : Bool :=
  let url_lower := pyLower url
  pyEndsWith url_lower ".pdf" ||
    containsSub url_lower "/pdf/" ||
    containsSub url_lower "download.pdf" ||
    containsSub url_lower "/getpdf" ||
    containsSub url_lower "pdf?" ||
    containsSub url_lower "pdf="

/-- `fetch_and_extract_html(url, ...)`: skip direct PDF URLs, otherwise
truncate a successful extraction to `MAX_ARTICLE_TEXT` characters plus the
truncation marker; returns `(text, reason)`. -/
def fetch_and_extract_html (url : String) (fetchResult : Bool × Option String) :
    String × String :=
  if isPdfUrl url then
    ("", "Skipped: PDF URL detected in path (" ++ pySlice url 80 ++ ")")
  else
    match fetchResult with
    | (true, some content) =>
      if content = "" then
        ("", "Failed to extract content using AcademicArticleFetcher")
      else if MAX_ARTICLE_TEXT < content.length then
        (pySlice content MAX_ARTICLE_TEXT ++ "\n\n...[truncated]",
          "Extracted using AcademicArticleFetcher")
      else
        (content, "Extracted using AcademicArticleFetcher")
    | _ => ("", "Failed to extract content using AcademicArticleFetcher")

/-- C5: whenever `fetch_and_extract_html` is reached with a successful fetch
(no PDF skip) whose extracted content is longer than `MAX_ARTICLE_TEXT`, the
returned text has length exactly `MAX_ARTICLE_TEXT` plus the length of the
truncation marker `"\n\n...[truncated]"` (16 characters). -/
theorem fetch_and_extract_html_truncates (url content : String)
    (hp : isPdfUrl url = false) (hl : MAX_ARTICLE_TEXT < content.length) :
    ((fetch_and_extract_html url (true, some content)).1).length =
      MAX_ARTICLE_TEXT + 16 := by
  have hne : ¬ content = "" := by
    intro h
    rw [h] at hl
    exact absurd hl (by decide)
  rw [fetch_and_extract_html, if_neg (by simp [hp]), if_neg hne, if_pos hl]
  rw [String.length_append, pySlice_length]
  have hmin : min MAX_ARTICLE_TEXT content.length = MAX_ARTICLE_TEXT :=
    min_eq_left (le_of_lt hl)
  rw [hmin]
  decide

theorem fetch_and_extract_html_truncates_witness :
    ((fetch_and_extract_html "https://example.org/article1"
      (true, some (String.mk (List.replicate 200001 'x')))).1).length =
      MAX_ARTICLE_TEXT + 16 :=
  fetch_and_extract_html_truncates "https://example.org/article1"
    (String.mk (List.replicate 200001 'x')) (by decide)
    (by rw [strLength_mk, List.length_replicate]; decide)

/-- One candidate link handed to `process_article_batch`
(`item.get("url")`, `item.get("title")`; a missing key is `none`). -/
structure Item where
  url : Option String
  title : Option String
deriving DecidableEq, Repr

/-- Outcome of the `fetch_and_extract_html(url, ...)` call for one item:
`ok extracted reason` is its returned pair, `exn excType msg` models the
call raising an exception (caught by the `except Exception` handler). -/
inductive FetchRes where
  | ok (extracted reason : String)
  | exn (excType msg : String)
deriving DecidableEq, Repr

/-- The ambient effects of one batch run: `fetchRes idx` is the fetch
outcome for item `idx`, `genId idx` models `str(uuid.uuid4())` and
`now idx` models `datetime.now().isoformat()` for the record created at
item `idx`; `start_idx` is the batch offset used in log numbering. -/
structure BatchCtx where
  start_idx : Nat
  fetchRes : Nat → FetchRes
  genId : Nat → String
  now : Nat → String

/-- The mutable state of the `process_article_batch` loop.  `fetched`
additionally records, in order, the URLs actually passed to
`fetch_and_extract_html` (an observation of the call trace). -/
structure BatchState where
  newArticles : List Article
  logs : List String
  imported : Nat
  seen : List String
  fetched : List String
deriving Repr

/-- What one loop iteration appends to the state. -/
structure Delta where
  arts : List Article
  log : String
  imp : Nat
  seenAdd : List String
  fetchedAdd : List String

/-- Python `not url or url in existing_urls`. -/
def dupCheck : Option String → List String → Bool
  | none, _ => true
  | some u, seen => u == "" || seen.contains u

/-- The body of the `for idx, item in enumerate(items)` loop of
`process_article_batch`, given the duplicate check already evaluated: each
branch appends one log line and possibly one record, extends the seen-set
with the item URL, and (when reached) calls the fetcher once. -/
def stepDelta (ctx : BatchCtx) (dup : Bool) (idx : Nat) (it : Item) : Delta :=
  let g := ctx.start_idx + idx + 1
  match it.url with
  | none => ⟨[], "⏭ " ++ toString g ++ ": Skipped (duplicate or no URL)", 0, [], []⟩
  | some u =>
    if dup then
      ⟨[], "⏭ " ++ toString g ++ ": Skipped (duplicate or no URL)", 0, [], []⟩
    else if isPdfUrl u then
      ⟨[], "⏭ " ++ toString g ++ ": Skipped PDF URL - " ++ pySlice u 80, 0, [], []⟩
    else
      let title := match it.title with
        | some t => if t = "" then u else t
        | none => u
      match ctx.fetchRes idx with
      | FetchRes.exn excType msg =>
        ⟨[], "❌ " ++ toString g ++ ": Unexpected error: " ++ excType ++ ": " ++
          pySlice msg 100, 0, [], [u]⟩
      | FetchRes.ok extracted reason =>
        if extracted ≠ "" ∧ 200 < extracted.length then
          ⟨[⟨ctx.genId idx, title, [], "", u, extracted, ctx.now idx,
              ImportStatus.success, none⟩],
            "✅ " ++ toString g ++ ": " ++ reason ++ " (" ++
              toString extracted.length ++ " chars)",
            1, [u], [u]⟩
        else if reason ≠ "" then
          ⟨[⟨ctx.genId idx, title, [], "", u, "", ctx.now idx,
              ImportStatus.failed, some reason⟩],
            "❌ " ++ toString g ++ ": " ++ reason, 0, [u], [u]⟩
        else
          ⟨[], "❌ " ++ toString g ++ ": " ++ reason, 0, [], [u]⟩

/-- One loop iteration of `process_article_batch`. -/
def stepItem (ctx : BatchCtx) (st : BatchState) (p : Nat × Item) : BatchState :=
  let d := stepDelta ctx (dupCheck p.2.url st.seen) p.1 p.2
  ⟨st.newArticles ++ d.arts, st.logs ++ [d.log], st.imported + d.imp,
    st.seen ++ d.seenAdd, st.fetched ++ d.fetchedAdd⟩

/-- The whole loop, with `idx` tracking `enumerate`. -/
def runBatchFrom (ctx : BatchCtx) : Nat → List Item → BatchState → BatchState
  | _, [], st => st
  | idx, it :: rest, st => runBatchFrom ctx (idx + 1) rest (stepItem ctx st (idx, it))

/-- The static blocked-domain set (a Python `set` literal; modelled as a
list in source order, which fixes the unspecified set-iteration order used
by the log summary). -/
def BLOCKED_DOMAINS : List String :=
  ["annualreviews.org", "acs.org", "science.org",
   "sciencedirect.com", "wiley.com", "springer.com",
   "ieeexplore.ieee.org", "nature.com", "cell.com",
   "pnas.org", "journals.asm.org", "liebertpub.com",
   "tandfonline.com", "sagepub.com", "karger.com"]

/-- Increment a counter dict modelled as an association list preserving
insertion order (`blocked_summary[domain] = blocked_summary.get(domain, 0) + 1`). -/
def bumpCount (l : List (String × Nat)) (d : String) : List (String × Nat) :=
  match l with
  | [] => [(d, 1)]
  | (k, v) :: rest => if k = d then (k, v + 1) :: rest else (k, v) :: bumpCount rest d

/-- The blocked-domain tally scanned from the log lines. -/
def blockedCounts (logs : List String) : List (String × Nat) :=
  logs.foldl
    (fun acc log =>
      BLOCKED_DOMAINS.foldl
        (fun acc2 dom => if containsSub log dom then bumpCount acc2 dom else acc2)
        acc)
    []

/-- The trailing summary block appended to the logs when any blocked domain
was seen (`sorted(..., key=lambda x: -x[1])` is a stable descending sort by
count). -/
def summaryLogs (logs : List String) : List String :=
  let counts := blockedCounts logs
  if counts.isEmpty then []
  else
    ["", "📊 SUMMARY: Blocked Domains"]
      ++ (sortGeBy (fun p => ((p.2 : ℚ))) counts).map
        (fun p => " • " ++ p.1 ++ ": " ++ toString p.2 ++ " articles")
      ++ ["", "💡 To access blocked content:",
          " 1. Institutional login: Use your university/organization credentials",
          " 2. VPN: Connect to institutional VPN to bypass geographic restrictions",
          " 3. Library proxy: Some institutions provide proxy URLs",
          " 4. DOI alternative: Try searching the DOI directly via https://doi.org/"]

/-- The full loop state of `process_article_batch` (before the summary is
appended), exposing the seen-set and the fetch trace. -/
def process_article_batch_state (ctx : BatchCtx) (items : List Item)
    (existing_urls : List String) : BatchState :=
  runBatchFrom ctx 0 items ⟨[], [], 0, existing_urls, []⟩

/-- `process_article_batch(items, start_idx, ...)`:
returns `(new_articles, logs, imported)`. -/
def process_article_batch (ctx : BatchCtx) (items : List Item)
    (existing_urls : List String) : List Article × List String × Nat :=
  let st := process_article_batch_state ctx items existing_urls
  (st.newArticles, st.logs ++ summaryLogs st.logs, st.imported)

/-- The invariant of every record appended by the batch loop. -/
def recordInvariant (a : Article) : Prop :=
  (a.importStatus = ImportStatus.success → 200 < a.text.length ∧ a.importReason = none) ∧
  (a.importStatus = ImportStatus.failed →
    a.text = "" ∧ ∃ r, a.importReason = some r ∧ r ≠ "")

def countUrl (u : String) (l : List Article) : Nat :=
  (l.filter (fun a => a.url == u)).length

def countSucc (l : List Article) : Nat :=
  (l.filter (fun a => a.importStatus == ImportStatus.success)).length

theorem stepDelta_cases (ctx : BatchCtx) (dup : Bool) (idx : Nat) (it : Item) :
    ((stepDelta ctx dup idx it).arts = [] ∧ (stepDelta ctx dup idx it).imp = 0 ∧
      (stepDelta ctx dup idx it).seenAdd = [] ∧
      ((stepDelta ctx dup idx it).fetchedAdd = [] ∨
        ∃ u, it.url = some u ∧ (stepDelta ctx dup idx it).fetchedAdd = [u])) ∨
    (∃ u a, it.url = some u ∧ a.url = u ∧ recordInvariant a ∧
      (stepDelta ctx dup idx it).arts = [a] ∧
      (stepDelta ctx dup idx it).seenAdd = [u] ∧
      (stepDelta ctx dup idx it).fetchedAdd = [u] ∧
      (stepDelta ctx dup idx it).imp =
        (if a.importStatus = ImportStatus.success then 1 else 0)) := by
  unfold stepDelta
  cases hu : it.url with
  | none => simp
  | some u =>
    by_cases hdup : dup
    · simp [hdup]
    · simp only [hdup, if_false, Bool.false_eq_true]
      by_cases hpdf : isPdfUrl u
      · simp [hpdf]
      · simp only [hpdf, if_false, Bool.false_eq_true]
        cases hfr : ctx.fetchRes idx with
        | exn excType msg => simp
        | ok e r =>
          dsimp only
          by_cases hc : e ≠ "" ∧ 200 < e.length
          · rw [if_pos hc]
            right
            refine ⟨u, _, rfl, rfl, ?_, rfl, rfl, rfl, ?_⟩
            · constructor
              · intro _
                exact ⟨hc.2, rfl⟩
              · intro h
                exact absurd h (by simp)
            · simp
          · rw [if_neg hc]
            by_cases hr : r ≠ ""
            · rw [if_pos hr]
              right
              refine ⟨u, _, rfl, rfl, ?_, rfl, rfl, rfl, ?_⟩
              · constructor
                · intro h
                  exact absurd h (by simp)
                · intro _
                  exact ⟨rfl, r, rfl, hr⟩
              · simp
            · rw [if_neg hr]
              left
              simp

theorem countUrl_append (u : String) (l1 l2 : List Article) :
    countUrl u (l1 ++ l2) = countUrl u l1 + countUrl u l2 := by
  simp [countUrl, List.filter_append]

theorem countSucc_append (l1 l2 : List Article) :
    countSucc (l1 ++ l2) = countSucc l1 + countSucc l2 := by
  simp [countSucc, List.filter_append]

theorem runBatchFrom_records (ctx : BatchCtx) :
    ∀ (l : List Item) (idx : Nat) (st : BatchState),
    (∀ a ∈ st.newArticles, recordInvariant a) →
    ∀ a ∈ (runBatchFrom ctx idx l st).newArticles, recordInvariant a := by
  intro l
  induction l with
  | nil => intro idx st h; exact h
  | cons it rest ih =>
    intro idx st h
    apply ih
    intro a ha
    have ha2 : a ∈ st.newArticles ∨
        a ∈ (stepDelta ctx (dupCheck it.url st.seen) idx it).arts := by
      have he : (stepItem ctx st (idx, it)).newArticles =
          st.newArticles ++ (stepDelta ctx (dupCheck it.url st.seen) idx it).arts := rfl
      rw [he] at ha
      exact List.mem_append.mp ha
    rcases ha2 with ha2 | ha2
    · exact h a ha2
    · rcases stepDelta_cases ctx (dupCheck it.url st.seen) idx it with
        ⟨hnil, _⟩ | ⟨u, b, _, _, hinv, harts, _⟩
      · rw [hnil] at ha2
        exact absurd ha2 (List.not_mem_nil a)
      · rw [harts] at ha2
        rcases List.mem_singleton.mp ha2 with rfl
        exact hinv

theorem runBatchFrom_imported (ctx : BatchCtx) :
    ∀ (l : List Item) (idx : Nat) (st : BatchState),
    st.imported = countSucc st.newArticles →
    (runBatchFrom ctx idx l st).imported =
      countSucc (runBatchFrom ctx idx l st).newArticles := by
  intro l
  induction l with
  | nil => intro idx st h; exact h
  | cons it rest ih =>
    intro idx st h
    apply ih
    have harts : (stepItem ctx st (idx, it)).newArticles =
        st.newArticles ++ (stepDelta ctx (dupCheck it.url st.seen) idx it).arts := rfl
    have himp : (stepItem ctx st (idx, it)).imported =
        st.imported + (stepDelta ctx (dupCheck it.url st.seen) idx it).imp := rfl
    rw [harts, himp, countSucc_append, h]
    congr 1
    rcases stepDelta_cases ctx (dupCheck it.url st.seen) idx it with
      ⟨hnil, himp0, _⟩ | ⟨u, b, _, _, _, harts2, _, _, himp2⟩
    · rw [hnil, himp0]
      rfl
    · rw [harts2, himp2]
      by_cases hs : b.importStatus = ImportStatus.success
      · simp [countSucc, hs]
      · simp [countSucc, hs]

/-- C1: every record appended by `process_article_batch` satisfies the
status invariant — a record with import_status success has text longer than
200 characters and no import_reason; a record with import_status failed has
empty text and a non-empty import_reason. -/
theorem process_article_batch_record_invariant (ctx : BatchCtx) (items : List Item)
    (existing_urls : List String) :
    ∀ a ∈ (process_article_batch ctx items existing_urls).1,
      (a.importStatus = ImportStatus.success →
        200 < a.text.length ∧ a.importReason = none) ∧
      (a.importStatus = ImportStatus.failed →
        a.text = "" ∧ ∃ r, a.importReason = some r ∧ r ≠ "") := by
  intro a ha
  exact runBatchFrom_records ctx items 0 ⟨[], [], 0, existing_urls, []⟩
    (fun b hb => absurd hb (List.not_mem_nil b)) a ha

theorem process_article_batch_record_invariant_witness :
    ((⟨"id0", "T", [], "", "http://example.com/a", "", "t0", ImportStatus.failed,
        some "Failed to extract content using AcademicArticleFetcher"⟩ :
          Article).importStatus = ImportStatus.success →
      200 < (⟨"id0", "T", [], "", "http://example.com/a", "", "t0", ImportStatus.failed,
        some "Failed to extract content using AcademicArticleFetcher"⟩ :
          Article).text.length ∧
        (⟨"id0", "T", [], "", "http://example.com/a", "", "t0", ImportStatus.failed,
          some "Failed to extract content using AcademicArticleFetcher"⟩ :
            Article).importReason = none) ∧
    ((⟨"id0", "T", [], "", "http://example.com/a", "", "t0", ImportStatus.failed,
        some "Failed to extract content using AcademicArticleFetcher"⟩ :
          Article).importStatus = ImportStatus.failed →
      (⟨"id0", "T", [], "", "http://example.com/a", "", "t0", ImportStatus.failed,
        some "Failed to extract content using AcademicArticleFetcher"⟩ :
          Article).text = "" ∧
        ∃ r, (⟨"id0", "T", [], "", "http://example.com/a", "", "t0", ImportStatus.failed,
          some "Failed to extract content using AcademicArticleFetcher"⟩ :
            Article).importReason = some r ∧ r ≠ "") :=
  process_article_batch_record_invariant
    ⟨0, fun _ => FetchRes.ok "" "Failed to extract content using AcademicArticleFetcher",
      fun _ => "id0", fun _ => "t0"⟩
    [⟨some "http://example.com/a", some "T"⟩] []
    ⟨"id0", "T", [], "", "http://example.com/a", "", "t0", ImportStatus.failed,
      some "Failed to extract content using AcademicArticleFetcher"⟩ (by decide)

/-- C9: the importedCount returned by `process_article_batch` equals the
number of records with import_status success in the returned newRecords
list (failed records are appended but never counted as imported). -/
theorem process_article_batch_imported_eq_success_count (ctx : BatchCtx)
    (items : List Item) (existing_urls : List String) :
    (process_article_batch ctx items existing_urls).2.2 =
      ((process_article_batch ctx items existing_urls).1.filter
        (fun a => a.importStatus == ImportStatus.success)).length :=
  runBatchFrom_imported ctx items 0 ⟨[], [], 0, existing_urls, []⟩ rfl

theorem stepDelta_dup_skip (ctx : BatchCtx) (idx : Nat) (it : Item) (u : String)
    (hu : it.url = some u) :
    stepDelta ctx true idx it =
      ⟨[], "⏭ " ++ toString (ctx.start_idx + idx + 1) ++ ": Skipped (duplicate or no URL)",
        0, [], []⟩ := by
  unfold stepDelta
  rw [hu]
  rfl

theorem stepItem_proj (ctx : BatchCtx) (st : BatchState) (idx : Nat) (it : Item) :
    stepItem ctx st (idx, it) =
      ⟨st.newArticles ++ (stepDelta ctx (dupCheck it.url st.seen) idx it).arts,
        st.logs ++ [(stepDelta ctx (dupCheck it.url st.seen) idx it).log],
        st.imported + (stepDelta ctx (dupCheck it.url st.seen) idx it).imp,
        st.seen ++ (stepDelta ctx (dupCheck it.url st.seen) idx it).seenAdd,
        st.fetched ++ (stepDelta ctx (dupCheck it.url st.seen) idx it).fetchedAdd⟩ := rfl

theorem stepItem_preserve (ctx : BatchCtx) (st : BatchState) (idx : Nat) (it : Item)
    (u : String) (h : it.url ≠ some u ∨ u ∈ st.seen) :
    countUrl u (stepItem ctx st (idx, it)).newArticles = countUrl u st.newArticles ∧
    (stepItem ctx st (idx, it)).fetched.count u = st.fetched.count u ∧
    (u ∈ (stepItem ctx st (idx, it)).seen ↔ u ∈ st.seen) := by
  by_cases hitu : it.url = some u
  · have hseen : u ∈ st.seen := h.resolve_left (fun hne => hne hitu)
    have hdup : dupCheck it.url st.seen = true := by
      rw [hitu]
      simp [dupCheck, hseen]
    rw [stepItem_proj, hdup, stepDelta_dup_skip ctx idx it u hitu]
    refine ⟨?_, ?_, ?_⟩ <;> simp [hseen]
  · rw [stepItem_proj]
    rcases stepDelta_cases ctx (dupCheck it.url st.seen) idx it with
      ⟨hnil, _, hseen0, hf⟩ | ⟨u2, a, hu2, haurl, _, harts, hseen2, hfetch2, _⟩
    · rw [hnil, hseen0]
      rcases hf with hf | ⟨u2, hu2, hf⟩
      · rw [hf]
        simp
      · have hu2ne : u2 ≠ u := fun he => hitu (he ▸ hu2)
        rw [hf]
        simp [List.count_append, List.count_cons, List.count_nil, hu2ne]
    · have hu2ne : u2 ≠ u := fun he => hitu (he ▸ hu2)
      rw [harts, hseen2, hfetch2]
      have haune : a.url ≠ u := by rw [haurl]; exact hu2ne
      refine ⟨?_, ?_, ?_⟩
      · rw [countUrl_append]
        simp [countUrl, haune]
      · simp [List.count_append, List.count_cons, List.count_nil, hu2ne]
      · simp [Ne.symm hu2ne]

theorem runBatchFrom_preserve (ctx : BatchCtx) (u : String) :
    ∀ (l : List Item) (idx : Nat) (st : BatchState),
    ((∀ it ∈ l, it.url ≠ some u) ∨ u ∈ st.seen) →
    countUrl u (runBatchFrom ctx idx l st).newArticles = countUrl u st.newArticles ∧
    (runBatchFrom ctx idx l st).fetched.count u = st.fetched.count u ∧
    (u ∈ (runBatchFrom ctx idx l st).seen ↔ u ∈ st.seen) := by
  intro l
  induction l with
  | nil => intro idx st _; exact ⟨rfl, rfl, Iff.rfl⟩
  | cons it rest ih =>
    intro idx st h
    have hstep := stepItem_preserve ctx st idx it u (by
      rcases h with h | h
      · exact Or.inl (h it (List.mem_cons_self it rest))
      · exact Or.inr h)
    have hrec := ih (idx + 1) (stepItem ctx st (idx, it)) (by
      rcases h with h | h
      · exact Or.inl (fun x hx => h x (List.mem_cons_of_mem it hx))
      · exact Or.inr (hstep.2.2.mpr h))
    have hrun : runBatchFrom ctx idx (it :: rest) st =
        runBatchFrom ctx (idx + 1) rest (stepItem ctx st (idx, it)) := rfl
    rw [hrun]
    exact ⟨hrec.1.trans hstep.1, hrec.2.1.trans hstep.2.1, hrec.2.2.trans hstep.2.2⟩

theorem runBatchFrom_logs (ctx : BatchCtx) :
    ∀ (l : List Item) (idx : Nat) (st : BatchState),
    ∃ t : List String, (runBatchFrom ctx idx l st).logs = st.logs ++ t ∧
      t.length = l.length := by
  intro l
  induction l with
  | nil => intro idx st; exact ⟨[], by simp [runBatchFrom], rfl⟩
  | cons it rest ih =>
    intro idx st
    obtain ⟨t, ht, hlen⟩ := ih (idx + 1) (stepItem ctx st (idx, it))
    refine ⟨(stepDelta ctx (dupCheck it.url st.seen) idx it).log :: t, ?_, by simp [hlen]⟩
    have hrun : runBatchFrom ctx idx (it :: rest) st =
        runBatchFrom ctx (idx + 1) rest (stepItem ctx st (idx, it)) := rfl
    rw [hrun, ht, stepItem_proj]
    simp

theorem runBatchFrom_append (ctx : BatchCtx) (l1 l2 : List Item) :
    ∀ (idx : Nat) (st : BatchState),
    runBatchFrom ctx idx (l1 ++ l2) st =
      runBatchFrom ctx (idx + l1.length) l2 (runBatchFrom ctx idx l1 st) := by
  induction l1 with
  | nil => intro idx st; simp [runBatchFrom]
  | cons it rest ih =>
    intro idx st
    have h1 : runBatchFrom ctx idx ((it :: rest) ++ l2) st =
        runBatchFrom ctx (idx + 1) (rest ++ l2) (stepItem ctx st (idx, it)) := rfl
    have h2 : idx + (it :: rest).length = (idx + 1) + rest.length := by
      rw [List.length_cons]
      omega
    rw [h1, ih, h2]
    rfl

theorem stepItem_first (ctx : BatchCtx) (st : BatchState) (idx : Nat) (it : Item)
    (u e r : String) (hu : it.url = some u) (hne : u ≠ "") (hseen : u ∉ st.seen)
    (hpdf : isPdfUrl u = false) (hfr : ctx.fetchRes idx = FetchRes.ok e r)
    (hc : (e ≠ "" ∧ 200 < e.length) ∨ r ≠ "") :
    countUrl u (stepItem ctx st (idx, it)).newArticles = countUrl u st.newArticles + 1 ∧
    (stepItem ctx st (idx, it)).fetched.count u = st.fetched.count u + 1 ∧
    u ∈ (stepItem ctx st (idx, it)).seen ∧
    (stepItem ctx st (idx, it)).logs.length = st.logs.length + 1 := by
  have hdup : dupCheck it.url st.seen = false := by
    rw [hu]
    simp [dupCheck, hne, hseen]
  have hdelta : ∃ a : Article, a.url = u ∧
      (stepDelta ctx false idx it).arts = [a] ∧
      (stepDelta ctx false idx it).seenAdd = [u] ∧
      (stepDelta ctx false idx it).fetchedAdd = [u] := by
    unfold stepDelta
    rw [hu]
    dsimp only
    rw [if_neg (by simp), if_neg (by simp [hpdf]), hfr]
    dsimp only
    by_cases h1 : e ≠ "" ∧ 200 < e.length
    · rw [if_pos h1]
      exact ⟨_, rfl, rfl, rfl, rfl⟩
    · have hr : r ≠ "" := hc.resolve_left h1
      rw [if_neg h1, if_pos hr]
      exact ⟨_, rfl, rfl, rfl, rfl⟩
  obtain ⟨a, haurl, harts, hseenAdd, hfetchAdd⟩ := hdelta
  rw [stepItem_proj, hdup, harts, hseenAdd, hfetchAdd]
  refine ⟨?_, ?_, ?_, ?_⟩
  · rw [countUrl_append]
    simp [countUrl, haurl]
  · simp [List.count_append, List.count_cons, List.count_nil]
  · simp
  · simp

theorem stepItem_dup (ctx : BatchCtx) (st : BatchState) (idx : Nat) (it : Item) (u : String)
    (hu : it.url = some u) (hseen : u ∈ st.seen) :
    stepItem ctx st (idx, it) =
      ⟨st.newArticles,
        st.logs ++ ["⏭ " ++ toString (ctx.start_idx + idx + 1) ++
          ": Skipped (duplicate or no URL)"],
        st.imported, st.seen, st.fetched⟩ := by
  have hdup : dupCheck it.url st.seen = true := by
    rw [hu]
    simp [dupCheck, hseen]
  rw [stepItem_proj, hdup, stepDelta_dup_skip ctx idx it u hu]
  simp

/-- C6: when the same URL appears twice among the candidate links of one
batch and the first occurrence completes (the fetch call returns — either a
success or a non-empty failure reason), `process_article_batch` creates
exactly one new record for that URL, logs the second occurrence as a
duplicate skip, and passes the URL to the fetcher exactly once. -/
theorem process_article_batch_duplicate_url_once (ctx : BatchCtx)
    (existing_urls : List String) (pre mid post : List Item) (iti itj : Item)
    (u e r : String)
    (hui : iti.url = some u) (huj : itj.url = some u) (hne : u ≠ "")
    (hpdf : isPdfUrl u = false) (hex : u ∉ existing_urls)
    (hpre : ∀ it ∈ pre, it.url ≠ some u)
    (hfr : ctx.fetchRes pre.length = FetchRes.ok e r)
    (hc : (e ≠ "" ∧ 200 < e.length) ∨ r ≠ "") :
    ((process_article_batch ctx (pre ++ iti :: (mid ++ itj :: post)) existing_urls).1.filter
        (fun a => a.url == u)).length = 1 ∧
    ((process_article_batch ctx (pre ++ iti :: (mid ++ itj :: post))
        existing_urls).2.1)[pre.length + 1 + mid.length]? =
      some ("⏭ " ++ toString (ctx.start_idx + (pre.length + 1 + mid.length) + 1) ++ ": Skipped (duplicate or no URL)") ∧
    (process_article_batch_state ctx (pre ++ iti :: (mid ++ itj :: post))
        existing_urls).fetched.count u = 1 := by
  have hApre := runBatchFrom_preserve ctx u pre 0 (⟨[], [], 0, existing_urls, []⟩ : BatchState) (Or.inl hpre)
  have hseenpre : u ∉ (runBatchFrom ctx 0 pre (⟨[], [], 0, existing_urls, []⟩ : BatchState)).seen := fun hmem => hex (hApre.2.2.mp hmem)
  obtain ⟨t1, ht1, hlen1⟩ := runBatchFrom_logs ctx pre 0 (⟨[], [], 0, existing_urls, []⟩ : BatchState)
  have hfirst := stepItem_first ctx (runBatchFrom ctx 0 pre (⟨[], [], 0, existing_urls, []⟩ : BatchState)) pre.length iti u e r hui hne hseenpre hpdf hfr hc
  have hmid := runBatchFrom_preserve ctx u mid (pre.length + 1) (stepItem ctx (runBatchFrom ctx 0 pre (⟨[], [], 0, existing_urls, []⟩ : BatchState)) (pre.length, iti)) (Or.inr hfirst.2.2.1)
  obtain ⟨t2, ht2, hlen2⟩ := runBatchFrom_logs ctx mid (pre.length + 1) (stepItem ctx (runBatchFrom ctx 0 pre (⟨[], [], 0, existing_urls, []⟩ : BatchState)) (pre.length, iti))
  have hseenmid : u ∈ (runBatchFrom ctx (pre.length + 1) mid (stepItem ctx (runBatchFrom ctx 0 pre (⟨[], [], 0, existing_urls, []⟩ : BatchState)) (pre.length, iti))).seen := hmid.2.2.mpr hfirst.2.2.1
  have hdupstep := stepItem_dup ctx (runBatchFrom ctx (pre.length + 1) mid (stepItem ctx (runBatchFrom ctx 0 pre (⟨[], [], 0, existing_urls, []⟩ : BatchState)) (pre.length, iti))) (pre.length + 1 + mid.length) itj u huj hseenmid
  have hseenj : u ∈ (stepItem ctx (runBatchFrom ctx (pre.length + 1) mid (stepItem ctx (runBatchFrom ctx 0 pre (⟨[], [], 0, existing_urls, []⟩ : BatchState)) (pre.length, iti))) (pre.length + 1 + mid.length, itj)).seen := by
    rw [hdupstep]
    exact hseenmid
  have hpost := runBatchFrom_preserve ctx u post (pre.length + 1 + mid.length + 1) (stepItem ctx (runBatchFrom ctx (pre.length + 1) mid (stepItem ctx (runBatchFrom ctx 0 pre (⟨[], [], 0, existing_urls, []⟩ : BatchState)) (pre.length, iti))) (pre.length + 1 + mid.length, itj))
    (Or.inr hseenj)
  obtain ⟨t3, ht3, hlen3⟩ := runBatchFrom_logs ctx post (pre.length + 1 + mid.length + 1) (stepItem ctx (runBatchFrom ctx (pre.length + 1) mid (stepItem ctx (runBatchFrom ctx 0 pre (⟨[], [], 0, existing_urls, []⟩ : BatchState)) (pre.length, iti))) (pre.length + 1 + mid.length, itj))
  have hfull : process_article_batch_state ctx (pre ++ iti :: (mid ++ itj :: post))
      existing_urls = runBatchFrom ctx (pre.length + 1 + mid.length + 1) post (stepItem ctx (runBatchFrom ctx (pre.length + 1) mid (stepItem ctx (runBatchFrom ctx 0 pre (⟨[], [], 0, existing_urls, []⟩ : BatchState)) (pre.length, iti))) (pre.length + 1 + mid.length, itj)) := by
    rw [process_article_batch_state, runBatchFrom_append]
    rw [Nat.zero_add]
    have hcons1 : runBatchFrom ctx pre.length (iti :: (mid ++ itj :: post)) (runBatchFrom ctx 0 pre (⟨[], [], 0, existing_urls, []⟩ : BatchState)) =
        runBatchFrom ctx (pre.length + 1) (mid ++ itj :: post) (stepItem ctx (runBatchFrom ctx 0 pre (⟨[], [], 0, existing_urls, []⟩ : BatchState)) (pre.length, iti)) := rfl
    rw [hcons1, runBatchFrom_append]
    rfl
  have hlogpre : (runBatchFrom ctx 0 pre (⟨[], [], 0, existing_urls, []⟩ : BatchState)).logs.length = pre.length := by
    rw [ht1]
    simp [hlen1]
  have hlogmid : (runBatchFrom ctx (pre.length + 1) mid (stepItem ctx (runBatchFrom ctx 0 pre (⟨[], [], 0, existing_urls, []⟩ : BatchState)) (pre.length, iti))).logs.length = pre.length + 1 + mid.length := by
    rw [ht2, List.length_append, hlen2, hfirst.2.2.2, hlogpre]
  have hcount : countUrl u (runBatchFrom ctx (pre.length + 1 + mid.length + 1) post (stepItem ctx (runBatchFrom ctx (pre.length + 1) mid (stepItem ctx (runBatchFrom ctx 0 pre (⟨[], [], 0, existing_urls, []⟩ : BatchState)) (pre.length, iti))) (pre.length + 1 + mid.length, itj))).newArticles = 1 := by
    rw [hpost.1, hdupstep]
    show countUrl u (runBatchFrom ctx (pre.length + 1) mid (stepItem ctx (runBatchFrom ctx 0 pre (⟨[], [], 0, existing_urls, []⟩ : BatchState)) (pre.length, iti))).newArticles = 1
    rw [hmid.1, hfirst.1, hApre.1]
    rfl
  have hfetchcount : (runBatchFrom ctx (pre.length + 1 + mid.length + 1) post (stepItem ctx (runBatchFrom ctx (pre.length + 1) mid (stepItem ctx (runBatchFrom ctx 0 pre (⟨[], [], 0, existing_urls, []⟩ : BatchState)) (pre.length, iti))) (pre.length + 1 + mid.length, itj))).fetched.count u = 1 := by
    rw [hpost.2.1, hdupstep]
    show (runBatchFrom ctx (pre.length + 1) mid (stepItem ctx (runBatchFrom ctx 0 pre (⟨[], [], 0, existing_urls, []⟩ : BatchState)) (pre.length, iti))).fetched.count u = 1
    rw [hmid.2.1, hfirst.2.1, hApre.2.1]
    rfl
  refine ⟨?_, ?_, ?_⟩
  · show countUrl u (process_article_batch_state ctx (pre ++ iti :: (mid ++ itj :: post))
      existing_urls).newArticles = 1
    rw [hfull]
    exact hcount
  · show ((process_article_batch_state ctx (pre ++ iti :: (mid ++ itj :: post))
        existing_urls).logs ++ summaryLogs (process_article_batch_state ctx
          (pre ++ iti :: (mid ++ itj :: post)) existing_urls).logs)[
            pre.length + 1 + mid.length]? = some ("⏭ " ++ toString (ctx.start_idx + (pre.length + 1 + mid.length) + 1) ++ ": Skipped (duplicate or no URL)")
    rw [hfull, ht3, hdupstep]
    show (((((runBatchFrom ctx (pre.length + 1) mid (stepItem ctx (runBatchFrom ctx 0 pre (⟨[], [], 0, existing_urls, []⟩ : BatchState)) (pre.length, iti))).logs ++ ["⏭ " ++ toString (ctx.start_idx + (pre.length + 1 + mid.length) + 1) ++ ": Skipped (duplicate or no URL)"]) ++ t3) ++ summaryLogs (((runBatchFrom ctx (pre.length + 1) mid (stepItem ctx (runBatchFrom ctx 0 pre (⟨[], [], 0, existing_urls, []⟩ : BatchState)) (pre.length, iti))).logs ++ ["⏭ " ++ toString (ctx.start_idx + (pre.length + 1 + mid.length) + 1) ++ ": Skipped (duplicate or no URL)"]) ++ t3))[
      pre.length + 1 + mid.length]?) = some ("⏭ " ++ toString (ctx.start_idx + (pre.length + 1 + mid.length) + 1) ++ ": Skipped (duplicate or no URL)")
    rw [List.getElem?_append_left (by
      rw [List.length_append, List.length_append, List.length_cons, List.length_nil, hlogmid]
      omega)]
    rw [List.getElem?_append_left (by
      rw [List.length_append, List.length_cons, List.length_nil, hlogmid]
      omega)]
    rw [show pre.length + 1 + mid.length = (runBatchFrom ctx (pre.length + 1) mid (stepItem ctx (runBatchFrom ctx 0 pre (⟨[], [], 0, existing_urls, []⟩ : BatchState)) (pre.length, iti))).logs.length from hlogmid.symm]
    exact List.getElem?_concat_length _ _
  · rw [hfull]
    exact hfetchcount

theorem process_article_batch_duplicate_url_once_witness :
    ((process_article_batch
        ⟨0, fun _ => FetchRes.ok "" "no content", fun _ => "id", fun _ => "t"⟩
        [⟨some "http://a.com/x", some "T"⟩, ⟨some "http://a.com/x", some "T"⟩]
        []).1.filter (fun a => a.url == "http://a.com/x")).length = 1 ∧
    ((process_article_batch
        ⟨0, fun _ => FetchRes.ok "" "no content", fun _ => "id", fun _ => "t"⟩
        [⟨some "http://a.com/x", some "T"⟩, ⟨some "http://a.com/x", some "T"⟩]
        []).2.1)[1]? =
      some ("⏭ " ++ toString 2 ++ ": Skipped (duplicate or no URL)") ∧
    (process_article_batch_state
        ⟨0, fun _ => FetchRes.ok "" "no content", fun _ => "id", fun _ => "t"⟩
        [⟨some "http://a.com/x", some "T"⟩, ⟨some "http://a.com/x", some "T"⟩]
        []).fetched.count "http://a.com/x" = 1 :=
  process_article_batch_duplicate_url_once
    ⟨0, fun _ => FetchRes.ok "" "no content", fun _ => "id", fun _ => "t"⟩
    [] [] [] [] ⟨some "http://a.com/x", some "T"⟩ ⟨some "http://a.com/x", some "T"⟩
    "http://a.com/x" "" "no content" rfl rfl (by decide) (by decide)
    (List.not_mem_nil "http://a.com/x")
    (fun it h => absurd h (List.not_mem_nil it)) rfl (Or.inr (by decide))

/-! ### Fetch strategy selection (src/streamlit_app.py lines 516-591)

`AcademicArticleFetcher.fetch`: the live probes (`check_vpn_status`,
`test_proxy_access`) and each headless-browser attempt
(`try_fetch_with_method`) are external collaborators supplied as oracles;
`urllib.parse.quote` is likewise supplied as a function parameter.  The
embedding returns the fetch outcome together with the ordered list of
(method label, URL) attempts actually made. -/

/-- `urlparse(url).netloc` for `scheme://host/path`-shaped URLs: the text
between `"://"` and the next `/` (empty when there is no `"://"`). -/
def afterSchemeSep : List Char → Option (List Char)
  | [] => none
  | c :: rest =>
    if [':', '/', '/'].isPrefixOf (c :: rest) then some ((c :: rest).drop 3)
    else afterSchemeSep rest

def urlNetloc (url : String) : String :=
  match afterSchemeSep url.data with
  | some rest => String.mk (rest.takeWhile (fun c => c ≠ '/'))
  | none => ""

/-- `get_domain_info(url)`: the lowercased netloc with `"www."` removed,
and whether any blocked domain occurs in it. -/
def get_domain_info (url : String) : String × Bool :=
  let domain := pyReplace (pyLower (urlNetloc url)) "www." ""
  (domain, BLOCKED_DOMAINS.any (fun blocked => containsSub domain blocked))

/-- `generate_ezproxy_urls(url)`: the three EZproxy URL rewritings, labelled
as in the source. -/
def generate_ezproxy_urls (quote : String → String) (url : String) :
    List (String × String) :=
  let domain := urlNetloc url
  [("login_url", "https://proxy.lbl.gov/login?url=" ++ quote url),
   ("prefix", pyReplace url "://" ("://" ++ domain ++ ".proxy.lbl.gov/")),
   ("subdomain", pyReplace url ("://" ++ domain) ("://proxy-lbl-gov." ++ domain))]

/-- The pre-flight probe results of `test_proxy_access` that influence the
strategy prints and selection (only `direct_access` affects control flow). -/
structure PreflightRes where
  direct_access : Bool
  proxy_reachable : Bool
  proxy_login_page : Bool
  needs_auth : Bool
deriving DecidableEq, Repr

/-- The ordered attempt plan of `fetch`: Strategy 1 (direct) when the VPN is
reachable, the domain is unblocked, or the pre-flight direct probe
succeeded; Strategy 2 (the three EZproxy rewrites) when the domain is
blocked and the VPN is reachable; Strategy 3 (direct fallback) when the
domain is blocked and the VPN is unreachable. -/
def fetch_plan (quote : String → String) (url : String)
    (needs_proxy vpn_connected direct_access : Bool) : List (String × String) :=
  (if vpn_connected || !needs_proxy || direct_access
    then [("Direct Access", url)] else [])
  ++ (if needs_proxy && vpn_connected
    then (generate_ezproxy_urls quote url).map
      (fun p => ("EZproxy - " ++ p.1, p.2)) else [])
  ++ (if needs_proxy && !vpn_connected
    then [("Direct Access (Fallback)", url)] else [])

/-- Run the attempts in order, stopping at the first success (the early
`return True, content` of `fetch`); returns the outcome and the trace of
attempts made. -/
def tryAll (tryFetch : String → String → Bool × Option String) :
    List (String × String) → (Bool × Option String) × List (String × String)
  | [] => ((false, none), [])
  | (label, u) :: rest =>
    let res := tryFetch u label
    if res.1 then ((true, res.2), [(label, u)])
    else
      let tail := tryAll tryFetch rest
      (tail.1, (label, u) :: tail.2)

/-- `AcademicArticleFetcher.fetch(url)` with the probe outcomes and
per-attempt browser results supplied as oracles. -/
def fetcher_fetch (quote : String → String) (url : String) (vpn_connected : Bool)
    (pre : PreflightRes) (tryFetch : String → String → Bool × Option String) :
    (Bool × Option String) × List (String × String) :=
  let needs_proxy := (get_domain_info url).2
  tryAll tryFetch (fetch_plan quote url needs_proxy vpn_connected pre.direct_access)

/-- C7 counterexample: for the blocked domain sciencedirect.com with the
proxy unreachable but the pre-flight direct-access probe reporting success,
`fetch` attempts direct access twice (Strategy 1 and then the Strategy 3
fallback) when the browser attempts fail — not exactly once. -/
theorem fetcher_fetch_two_direct_attempts :
    ((fetcher_fetch (fun s => s)
        "https://www.sciencedirect.com/science/article/pii/S0000" false
        ⟨true, false, false, false⟩ (fun _ _ => (false, none))).2.map Prod.fst) =
      ["Direct Access", "Direct Access (Fallback)"] ∧
    ¬ (((fetcher_fetch (fun s => s)
        "https://www.sciencedirect.com/science/article/pii/S0000" false
        ⟨true, false, false, false⟩ (fun _ _ => (false, none))).2.filter
          (fun p => p.1 == "Direct Access" || p.1 == "Direct Access (Fallback)")).length
        = 1) := by
  constructor
  · decide
  · decide

/-- C7 (amended): for a URL whose domain is blocked, when the institutional
proxy is unreachable, `fetch` attempts none of the three proxy URL
rewritings, and attempts direct access exactly once — except when the
pre-flight probe reported direct access works and that first direct attempt
fails, in which case a second direct attempt (the Strategy 3 fallback) is
made. -/
theorem fetcher_fetch_blocked_proxy_unreachable (quote : String → String)
    (url : String) (pre : PreflightRes)
    (tryFetch : String → String → Bool × Option String)
    (hb : (get_domain_info url).2 = true) :
    (∀ p ∈ (fetcher_fetch quote url false pre tryFetch).2,
      p.1 = "Direct Access" ∨ p.1 = "Direct Access (Fallback)") ∧
    ((fetcher_fetch quote url false pre tryFetch).2.map Prod.fst =
      if pre.direct_access then
        (if (tryFetch url "Direct Access").1 then ["Direct Access"]
         else ["Direct Access", "Direct Access (Fallback)"])
      else ["Direct Access (Fallback)"]) := by
  rw [fetcher_fetch, hb, fetch_plan]
  cases hda : pre.direct_access with
  | false =>
    simp only [Bool.false_eq_true, if_false, Bool.or_false, Bool.and_false,
      Bool.false_or, Bool.and_self]
    cases hfb : (tryFetch url "Direct Access (Fallback)").1 with
    | false =>
      refine ⟨?_, ?_⟩ <;> simp [tryAll, hfb]
    | true =>
      refine ⟨?_, ?_⟩ <;> simp [tryAll, hfb]
  | true =>
    simp only [if_true, Bool.or_true, Bool.and_false, Bool.true_and]
    cases hd1 : (tryFetch url "Direct Access").1 with
    | false =>
      cases hfb : (tryFetch url "Direct Access (Fallback)").1 with
      | false =>
        refine ⟨?_, ?_⟩ <;> simp [tryAll, hd1, hfb]
      | true =>
        refine ⟨?_, ?_⟩ <;> simp [tryAll, hd1, hfb]
    | true =>
      refine ⟨?_, ?_⟩ <;> simp [tryAll, hd1]

theorem fetcher_fetch_blocked_proxy_unreachable_witness :
    (∀ p ∈ (fetcher_fetch (fun s => s) "https://www.nature.com/articles/x" false
        ⟨false, false, false, false⟩ (fun _ _ => (false, none))).2,
      p.1 = "Direct Access" ∨ p.1 = "Direct Access (Fallback)") ∧
    ((fetcher_fetch (fun s => s) "https://www.nature.com/articles/x" false
        ⟨false, false, false, false⟩ (fun _ _ => (false, none))).2.map Prod.fst =
      if (⟨false, false, false, false⟩ : PreflightRes).direct_access then
        (if ((fun _ _ => ((false : Bool), (none : Option String)))
            "https://www.nature.com/articles/x" "Direct Access").1 then ["Direct Access"]
         else ["Direct Access", "Direct Access (Fallback)"])
      else ["Direct Access (Fallback)"]) :=
  fetcher_fetch_blocked_proxy_unreachable (fun s => s)
    "https://www.nature.com/articles/x" ⟨false, false, false, false⟩
    (fun _ _ => (false, none)) (by decide)
